import Mathlib

/-!
Shallow embedding of the vml_ci build orchestration script (src/build.py and
src/fix_line_endings.py) and proofs about its per-project pipeline.
The filesystem and the external tools (build script, docker, yq, git) are
modelled as oracles collected in a World structure; all string and path
manipulation is translated from the source.  os.path.normpath is modelled as
the identity; paths are plain strings.
-/

/-- A manifest project record: one entry of build.config.json as used by
build.py (fields app, path, yaml, optional version, optional readytodeploy). -/
structure Item where
  app : String
  path : String
  yaml : String
  version : Option String
  readytodeploy : Option Nat
deriving Repr, DecidableEq

/-- Abstract run environment: filesystem probes and external-tool outcomes.
dirExists models os.path.isdir, fileExists models os.path.exists and
Path.exists, configLoad models load_config (none is a decode or read failure,
which the source turns into sys.exit(1)), appVersion models get_app_version
(none when the settings file is absent, unreadable or missing the field),
buildOk is the outcome of the build function for (path, tag, version, mode),
and yqOk is the outcome of the yq patch tool on a yaml path. -/
structure World where
  dirExists : String → Bool
  fileExists : String → Bool
  configLoad : String → Option (List Item)
  appVersion : String → Option String
  buildOk : String → String → String → String → Bool
  yqOk : String → Bool

/-- Externally visible mutations performed by a run: build invocations
(path, tag, version, mode), yq patch invocations (yaml path), manifest writes
by save_config (path, content), and git commit sequences. -/
structure Effects where
  builds : List (String × String × String × String)
  yqCalls : List String
  saves : List (String × List Item)
  gitCommits : Nat
deriving Repr, DecidableEq

def Effects.empty : Effects := ⟨[], [], [], 0⟩

def Effects.append (a b : Effects) : Effects :=
  ⟨a.builds ++ b.builds, a.yqCalls ++ b.yqCalls, a.saves ++ b.saves,
    a.gitCommits + b.gitCommits⟩

/-- os.path.join of two posix components. -/
def pjoin (a b : String) : String := a ++ "/" ++ b

/-- os.path.isabs on a posix path: the path starts with a slash. -/
def isAbs (p : String) : Bool :=
  match p.data with
  | [] => false
  | c :: _ => c = '/'

/-- Python str.lower for the ASCII strings handled here, character by
character over the underlying character list. -/
def strLower (s : String) : String := String.mk (s.data.map Char.toLower)

/-- Python membership test of a character in a string. -/
def strContains (s : String) (c : Char) : Bool := s.data.contains c

/-- Python str.split(sep) on the underlying character list for a one
character separator: empty input gives one empty field, every separator
occurrence starts a new field. -/
def splitCharList (sep : Char) : List Char → List (List Char)
  | [] => [[]]
  | c :: cs =>
    let r := splitCharList sep cs
    if c = sep then [] :: r
    else
      match r with
      | [] => [[c]]
      | h :: t => (c :: h) :: t

/-- Python str.strip(): drop ASCII whitespace from both ends. -/
def pyStrip (s : String) : String :=
  String.mk
    (((s.data.dropWhile Char.isWhitespace).reverse.dropWhile
        Char.isWhitespace).reverse)

/-- build.py line 428: item.get("version", "1.0.0"). -/
def oldVersionOf (item : Item) : String := item.version.getD "1.0.0"

/-- build.py line 429: split the pipe-delimited yaml field. -/
def yamlFilesOf (item : Item) : List String :=
  if strContains item.yaml '|' then (splitCharList '|' item.yaml.data).map String.mk
  else [item.yaml]

/-- build.py lines 433-437: index of the first record of the original config
whose app equals the given identifier. -/
def originalIndexOf (origConfig : List Item) (app : String) : Option Nat :=
  match origConfig with
  | [] => none
  | it :: rest =>
    if it.app = app then some 0 else (originalIndexOf rest app).map (· + 1)

/-- build.py lines 451-455: the fixed fallback project locations probed when
the configured path does not exist. -/
def fallbackPaths (originalPath : String) : List String :=
  [pjoin originalPath "vml/be_auth_sso_service/VietmapCloud.VietmapLive.Api",
   pjoin originalPath "../vml/be_auth_sso_service/VietmapCloud.VietmapLive.Api",
   pjoin originalPath "modules/vml/be_auth_sso_service/VietmapCloud.VietmapLive.Api"]

/-- build.py lines 439-468: absolute-path conversion, existence check and
fallback probing.  Returns the directory actually used, or none when the
loop gives up on the project (the continue after Could not find the project
directory). -/
def resolvePath (w : World) (originalPath : String) (item : Item) : Option String :=
  let path := if isAbs item.path then item.path else pjoin originalPath item.path
  if w.dirExists path then some path
  else (fallbackPaths originalPath).find? w.dirExists

/-- Python str.title for the single-word environment names used here:
first character upper-cased, the rest lower-cased. -/
def pyTitle (s : String) : String :=
  match s.data with
  | [] => ""
  | c :: cs => String.mk (c.toUpper :: cs.map Char.toLower)

/-- build.py lines 470-475: choose appsettings.json or, for the staging and
dev environments, the environment-specific variant when it exists. -/
def appSettingPath (w : World) (env path : String) : String :=
  let base := pjoin path "appsettings.json"
  if strLower env = "staging" ∨ strLower env = "dev" then
    let envPath := pjoin path ("appsettings." ++ pyTitle env ++ ".json")
    if w.fileExists envPath then envPath else base
  else base

/-- build.py lines 477-486: the resolved application version, falling back to
the stored version when get_app_version returns none. -/
def resolveVersion (w : World) (env path oldVersion : String) : String :=
  match w.appVersion (appSettingPath w env path) with
  | some v => v
  | none => oldVersion

/-- build.py lines 364-377: filter_projects. -/
def filter_projects (config : List Item) (projects : List String) : List Item :=
  if projects.isEmpty then config
  else config.filter (fun item => projects.contains item.app)

/-- build.py line 10: the fixed container registry. -/
def REGISTRY_URL : String := "vmapi/vml-s2"

/-- build.py lines 258-263: the candidate locations probed for a yaml file. -/
def candidatePaths (env yamlFile : String) : List String :=
  ["../vml_argocd/vml/" ++ strLower env ++ "/base/" ++ yamlFile,
   "modules/vml/" ++ strLower env ++ "/base/" ++ yamlFile,
   "vml_argocd/vml/" ++ strLower env ++ "/base/" ++ yamlFile,
   "../vml/" ++ strLower env ++ "/base/" ++ yamlFile]

/-- build.py lines 252-296: update_yaml_files.  For each file name, take the
first existing candidate path; a file found nowhere is skipped with a
warning; a yq failure on a found file returns False at once.  The second
component is the list of yaml paths on which yq was invoked. -/
def update_yaml_files (w : World) (env : String) :
    List String → String → String → Bool × List String
  | [], _, _ => (true, [])
  | f :: rest, tag, ver =>
    match (candidatePaths env (pyStrip f)).find? w.fileExists with
    | none => update_yaml_files w env rest tag ver
    | some p =>
      if w.yqOk p then
        let r := update_yaml_files w env rest tag ver
        (r.1, p :: r.2)
      else (false, [p])

/-- build.py lines 520-522: set version and readytodeploy on the record at
the given index, leaving every other record alone. -/
def setReady (cfg : List Item) (i : Nat) (version : String) : List Item :=
  match cfg, i with
  | [], _ => []
  | it :: rest, 0 =>
    { it with version := some version, readytodeploy := some 1 } :: rest
  | it :: rest, n + 1 => it :: setReady rest n version

/-- One iteration of the per-project loop of main (build.py lines 422-540).
Returns the outcome appended to build_results (none when the iteration
continues without recording one), whether the project joined built_projects,
the original config after any in-place update, and the effects. -/
def processItem (w : World) (env mode originalPath configPath : String)
    (origConfig : List Item) (item : Item) :
    Option Bool × Bool × List Item × Effects :=
  let oldVersion := oldVersionOf item
  let imageTag := item.app
  match resolvePath w originalPath item with
  | none => (none, false, origConfig, Effects.empty)
  | some path =>
    let version := resolveVersion w env path oldVersion
    if mode = "CICD" ∧ oldVersion = version then
      (some true, false, origConfig, Effects.empty)
    else
      let buildEff : Effects := ⟨[(path, imageTag, version, mode)], [], [], 0⟩
      if ¬ w.buildOk path imageTag version mode then
        (some false, false, origConfig, buildEff)
      else if mode = "CI" then
        (some true, true, origConfig, buildEff)
      else
        let yamlRes := update_yaml_files w env (yamlFilesOf item) imageTag version
        let eff1 : Effects := { buildEff with yqCalls := yamlRes.2 }
        if ¬ yamlRes.1 then
          (some false, false, origConfig, eff1)
        else
          match originalIndexOf origConfig item.app with
          | some i =>
            let newConfig := setReady origConfig i version
            (some true, true, newConfig,
              { eff1 with saves := [(configPath, newConfig)], gitCommits := 1 })
          | none =>
            (some true, true, origConfig, { eff1 with gitCommits := 1 })

/-- The per-project loop of main over the working config, threading the
original config and concatenating results, built projects and effects. -/
def mainLoop (w : World) (env mode originalPath configPath : String) :
    List Item → List Item → List Bool × List String × List Item × Effects
  | origConfig, [] => ([], [], origConfig, Effects.empty)
  | origConfig, item :: rest =>
    let s := processItem w env mode originalPath configPath origConfig item
    let t := mainLoop w env mode originalPath configPath s.2.2.1 rest
    (s.1.toList ++ t.1, (if s.2.1 then [item.app] else []) ++ t.2.1, t.2.2.1,
      s.2.2.2.append t.2.2.2)

/-- The observable result of a run of main. -/
structure RunResult where
  exitCode : Nat
  buildResults : List Bool
  builtProjects : List String
  effects : Effects
deriving Repr, DecidableEq

/-- build.py main (lines 379-553) with argv already split into env, mode,
repo and the optional project list; originalPath is the starting working
directory.  Exit code 1 on missing or undecodable manifest and when any
recorded outcome is a failure, 0 otherwise. -/
def mainModel (w : World) (env mode repo : String) (projects : List String)
    (originalPath : String) : RunResult :=
  let configPath := "modules/" ++ repo ++ "/" ++ strLower env ++ "/build.config.json"
  if ¬ w.fileExists configPath then ⟨1, [], [], Effects.empty⟩
  else
    match w.configLoad configPath with
    | none => ⟨1, [], [], Effects.empty⟩
    | some config =>
      let workConfig := if projects.isEmpty then config
        else filter_projects config projects
      let r := mainLoop w env mode originalPath configPath config workConfig
      if false ∈ r.1 then ⟨1, r.1, r.2.1, r.2.2.2⟩
      else ⟨0, r.1, r.2.1, r.2.2.2⟩

/-- A concrete project record used by the witnesses. -/
def itemA : Item := ⟨"svc-a", "p/a", "d.yaml", some "1.0.0", none⟩

/-- A second concrete project record used by the witnesses. -/
def itemB : Item := ⟨"svc-b", "p/b", "d.yaml", some "2.0.0", none⟩

/-- A concrete world where every path exists, appsettings carries no version,
and every external tool succeeds. -/
def w1 : World :=
  ⟨fun _ => true, fun _ => true, fun _ => some [itemA, itemB], fun _ => none,
    fun _ _ _ _ => true, fun _ => true⟩

/-- A concrete world whose appsettings reports version 1.0.1 and where every
tool succeeds. -/
def w4 : World :=
  ⟨fun _ => true, fun _ => true, fun _ => some [itemA, itemB],
    fun _ => some "1.0.1", fun _ _ _ _ => true, fun _ => true⟩

/-- The config persisted by the witness run of C4. -/
def newCfgC4 : List Item :=
  [⟨"svc-a", "p/a", "d.yaml", some "1.0.1", some 1⟩, itemB]

/-- The effects of the witness run of C4. -/
def effC4 : Effects :=
  ⟨[("/w/p/a", "svc-a", "1.0.1", "CICD")], ["../vml_argocd/vml/dev/base/d.yaml"],
    [("cfg", newCfgC4)], 1⟩

/-- A world where no project directory exists anywhere. -/
def wMissing : World :=
  ⟨fun _ => false, fun _ => true, fun _ => some [itemA], fun _ => none,
    fun _ _ _ _ => true, fun _ => true⟩

/-- A world where the project builds fail and the version has changed. -/
def wBF : World :=
  ⟨fun _ => true, fun _ => true, fun _ => some [itemA], fun _ => some "2.0.0",
    fun _ _ _ _ => false, fun _ => true⟩

/-- A world where builds succeed but the yq patch tool fails. -/
def wYF : World :=
  ⟨fun _ => true, fun _ => true, fun _ => some [itemA], fun _ => some "2.0.0",
    fun _ _ _ _ => true, fun _ => false⟩

/-- A world whose manifest never decodes. -/
def wNoCfg : World :=
  ⟨fun _ => true, fun _ => true, fun _ => none, fun _ => none,
    fun _ _ _ _ => true, fun _ => true⟩

/-- A world where no yaml candidate path exists. -/
def wYamlNone : World :=
  ⟨fun _ => false, fun _ => false, fun _ => none, fun _ => none,
    fun _ _ _ _ => true, fun _ => false⟩

/-- A world where every yaml candidate path exists but yq always fails. -/
def wYamlFail : World :=
  ⟨fun _ => false, fun _ => true, fun _ => none, fun _ => none,
    fun _ _ _ _ => true, fun _ => false⟩

/-- Oracles for the build function (build.py lines 89-155).  os.chdir to a
directory succeeds exactly when the directory exists; scriptExists probes for
build.sh in the given directory; fixOk is the fix_line_endings outcome there;
on Windows the bash attempts and the direct-build fallback are summarized by
windowsBuildOk, none of which changes the working directory in the source;
runScript is the ./build.sh invocation on Unix, none meaning it raised. -/
structure BuildWorld where
  dirExists : String → Bool
  scriptExists : String → Bool
  fixOk : String → Bool
  isWindows : Bool
  windowsBuildOk : String → String → String → String → Bool
  runScript : String → String → String → String → Option Bool

/-- The body of the try block of build (lines 93-149), returning the outcome
and the working directory at the moment the body finishes or raises; every
raise is caught by the except clause, which returns False (lines 151-153). -/
def buildBody (w : BuildWorld) (path imageTag version buildMode : String)
    (cwd0 : String) : Bool × String :=
  if ¬ w.dirExists path then (false, cwd0)
  else if ¬ w.scriptExists path then (false, path)
  else if ¬ w.fixOk path then (false, path)
  else if w.isWindows then (w.windowsBuildOk path imageTag version buildMode, path)
  else
    match w.runScript path imageTag version buildMode with
    | none => (false, path)
    | some ok => (ok, path)

/-- build (lines 89-155): the try body wrapped in a finally that changes back
to the original working directory. -/
def build (w : BuildWorld) (path imageTag version buildMode : String)
    (cwd0 : String) : Bool × String :=
  let r := buildBody w path imageTag version buildMode cwd0
  (r.1, if w.dirExists cwd0 then cwd0 else r.2)

/-- A concrete build world for the witness. -/
def bw1 : BuildWorld :=
  ⟨fun _ => true, fun _ => false, fun _ => true, false,
    fun _ _ _ _ => true, fun _ _ _ _ => some true⟩

/-- Python bytes.replace of the two byte needle CR LF by LF: one
left-to-right pass over non-overlapping occurrences (build.py line 76 and
fix_line_endings.py line 15). -/
def replaceCRLF : List Nat → List Nat
  | [] => []
  | 13 :: 10 :: rest => 10 :: replaceCRLF rest
  | b :: rest => b :: replaceCRLF rest

/-- Every CR byte is immediately followed by LF (no stray carriage return). -/
def crAlwaysBeforeLF : List Nat → Bool
  | [] => true
  | 13 :: 10 :: rest => crAlwaysBeforeLF rest
  | 13 :: _ => false
  | _ :: rest => crAlwaysBeforeLF rest

/-- A file as the fix touches it: its byte content and its permission bits. -/
structure FileState where
  content : List Nat
  mode : Nat
deriving Repr, DecidableEq

/-- The successful path of fix_line_endings (build.py lines 68-87): rewrite
the content with CRLF replaced by LF and chmod 0o755. -/
def fix_line_endings (f : FileState) : FileState :=
  ⟨replaceCRLF f.content, 0o755⟩

/-- Byte encoding of an ASCII string: its character codes. -/
def strBytes (s : String) : List Nat := s.data.map Char.toNat

/-- Python str.lower on one ASCII code unit (build.py line 218). -/
def lowerByte (b : Nat) : Nat := if 65 ≤ b ∧ b ≤ 90 then b + 32 else b

/-- Python str.lower over the byte encoding of an ASCII string. -/
def pyLowerBytes (s : List Nat) : List Nat := s.map lowerByte

/-- build.py line 280: the image reference written into the deployment YAML,
with the image tag used verbatim: REGISTRY_URL, colon, tag, dot, version. -/
def yamlImageRef (tag ver : List Nat) : List Nat :=
  strBytes REGISTRY_URL ++ strBytes ":" ++ tag ++ strBytes "." ++ ver

/-- build.py lines 218, 230 and 238: the image reference the direct-build
fallback tags and pushes, with the image tag lower-cased first. -/
def pushedImageRef (tag ver : List Nat) : List Nat :=
  strBytes REGISTRY_URL ++ strBytes ":" ++ pyLowerBytes tag ++ strBytes "." ++ ver

/- ### C3: filter_projects characterization -/

lemma count_filter_ite (p : Item → Bool) (a : Item) :
    ∀ l : List Item, (l.filter p).count a = if p a then l.count a else 0 := by
  intro l
  induction l with
  | nil => simp
  | cons x xs ih =>
    by_cases hx : p x
    · rw [List.filter_cons_of_pos hx]
      by_cases hax : x = a
      · subst hax
        rw [List.count_cons_self, List.count_cons_self, ih]
        simp [hx]
      · rw [List.count_cons_of_ne (fun hh => hax hh.symm),
          List.count_cons_of_ne (fun hh => hax hh.symm), ih]
    · rw [List.filter_cons_of_neg hx, ih]
      by_cases hpa : p a
      · have hax : a ≠ x := fun hh => hx (hh ▸ hpa)
        rw [if_pos hpa, if_pos hpa, List.count_cons_of_ne hax]
      · rw [if_neg hpa, if_neg hpa]

/-- C3: filtering by an empty subset returns the whole config; filtering by a
non-empty subset returns exactly the records whose app is in the subset, in
their original order (a sublist of the config with the exact multiplicities). -/
theorem filter_projects_spec (config : List Item) (projects : List String) :
    (projects = [] → filter_projects config projects = config) ∧
    (projects ≠ [] →
      (filter_projects config projects).Sublist config ∧
      ∀ it : Item, (filter_projects config projects).count it =
        if projects.contains it.app then config.count it else 0) := by
  constructor
  · intro h
    subst h
    simp [filter_projects]
  · intro h
    have hne : projects.isEmpty = false := by
      cases projects with
      | nil => exact absurd rfl h
      | cons a l => rfl
    unfold filter_projects
    rw [hne]
    simp only [Bool.false_eq_true, if_false]
    refine ⟨List.filter_sublist config, ?_⟩
    intro it
    exact count_filter_ite (fun item => projects.contains item.app) it config

/- ### C1 and C2: the build-mode gating of the per-project loop -/

/-- C1: in gated mode (BUILD_MODE exactly CICD), a processed project whose
resolved version equals the stored version records a success outcome and the
build is never invoked (no build effects for that project). -/
theorem cicd_unchanged_version_skips_build
    (w : World) (env originalPath configPath : String) (origConfig : List Item)
    (item : Item) (p : String)
    (hp : resolvePath w originalPath item = some p)
    (hv : resolveVersion w env p (oldVersionOf item) = oldVersionOf item) :
    (processItem w env "CICD" originalPath configPath origConfig item).1 = some true ∧
    (processItem w env "CICD" originalPath configPath origConfig item).2.2.2.builds
      = [] := by
  unfold processItem
  rw [hp]
  simp [hv, Effects.empty]

/-- C2: in CI mode a processed project is always built exactly once,
whatever the version comparison says, and the iteration performs no yq
patch, no manifest write and no git commit, whatever the build outcome;
the in-memory original config is left untouched. -/
theorem ci_mode_always_builds_never_updates
    (w : World) (env originalPath configPath : String) (origConfig : List Item)
    (item : Item) (p : String)
    (hp : resolvePath w originalPath item = some p) :
    (processItem w env "CI" originalPath configPath origConfig item).2.2.2 =
      ⟨[(p, item.app, resolveVersion w env p (oldVersionOf item), "CI")],
        [], [], 0⟩ ∧
    (processItem w env "CI" originalPath configPath origConfig item).2.2.1
      = origConfig := by
  unfold processItem
  rw [hp]
  by_cases hb : w.buildOk p item.app (resolveVersion w env p (oldVersionOf item)) "CI"
  · simp [hb]
  · simp [hb]

/-- Witness for C1: with the stored version resolved unchanged, the gated
mode records success and performs zero builds. -/
theorem cicd_unchanged_version_skips_build_witness :
    (processItem w1 "dev" "CICD" "/w" "cfg" [itemA, itemB] itemA).1 = some true ∧
    (processItem w1 "dev" "CICD" "/w" "cfg" [itemA, itemB] itemA).2.2.2.builds
      = [] :=
  cicd_unchanged_version_skips_build w1 "dev" "/w" "cfg" [itemA, itemB] itemA
    "/w/p/a" (by decide) (by decide)

/-- Witness for C2: in CI mode the project is built once and no update
effects occur. -/
theorem ci_mode_always_builds_never_updates_witness :
    (processItem w1 "prod" "CI" "/w" "cfg" [itemA, itemB] itemB).2.2.2 =
      ⟨[("/w/p/b", "svc-b", "2.0.0", "CI")], [], [], 0⟩ ∧
    (processItem w1 "prod" "CI" "/w" "cfg" [itemA, itemB] itemB).2.2.1
      = [itemA, itemB] := by
  have h := ci_mode_always_builds_never_updates w1 "prod" "/w" "cfg"
    [itemA, itemB] itemB "/w/p/b" (by decide)
  exact ⟨by rw [h.1]; decide, h.2⟩

/-- Witness for C3 at a concrete manifest and subsets. -/
theorem filter_projects_spec_witness :
    (filter_projects
        [⟨"svc-a", "p/a", "d.yaml", some "1.0.0", none⟩,
         ⟨"svc-b", "p/b", "d.yaml", some "2.0.0", none⟩] [] =
      [⟨"svc-a", "p/a", "d.yaml", some "1.0.0", none⟩,
       ⟨"svc-b", "p/b", "d.yaml", some "2.0.0", none⟩]) ∧
    (filter_projects
        [⟨"svc-a", "p/a", "d.yaml", some "1.0.0", none⟩,
         ⟨"svc-b", "p/b", "d.yaml", some "2.0.0", none⟩] ["svc-a"]).Sublist
      [⟨"svc-a", "p/a", "d.yaml", some "1.0.0", none⟩,
       ⟨"svc-b", "p/b", "d.yaml", some "2.0.0", none⟩] :=
  ⟨(filter_projects_spec _ []).1 rfl,
   ((filter_projects_spec _ ["svc-a"]).2 (by decide)).1⟩

/- ### C4: the persisted manifest after a successful gated cycle -/

lemma originalIndexOf_lt_length :
    ∀ (cfg : List Item) (app : String) (i : Nat),
      originalIndexOf cfg app = some i → i < cfg.length := by
  intro cfg
  induction cfg with
  | nil =>
    intro app i h
    exact absurd h (by simp [originalIndexOf])
  | cons x xs ih =>
    intro app i h
    unfold originalIndexOf at h
    by_cases hx : x.app = app
    · rw [if_pos hx] at h
      cases h
      exact Nat.succ_pos _
    · rw [if_neg hx, Option.map_eq_some'] at h
      obtain ⟨j, hj, hij⟩ := h
      subst hij
      exact Nat.succ_lt_succ (ih app j hj)

lemma setReady_get?_self :
    ∀ (cfg : List Item) (i : Nat) (v : String),
      (setReady cfg i v).get? i =
        (cfg.get? i).map
          (fun it => { it with version := some v, readytodeploy := some 1 }) := by
  intro cfg
  induction cfg with
  | nil => intro i v; cases i <;> rfl
  | cons x xs ih =>
    intro i v
    cases i with
    | zero => rfl
    | succ n => simpa [setReady] using ih n v

lemma setReady_get?_ne :
    ∀ (cfg : List Item) (i : Nat) (v : String) (j : Nat), j ≠ i →
      (setReady cfg i v).get? j = cfg.get? j := by
  intro cfg
  induction cfg with
  | nil => intro i v j hj; cases i <;> rfl
  | cons x xs ih =>
    intro i v j hj
    cases i with
    | zero =>
      cases j with
      | zero => exact absurd rfl hj
      | succ m => rfl
    | succ n =>
      cases j with
      | zero => rfl
      | succ m =>
        simpa [setReady] using ih n v m (fun hh => hj (by rw [hh]))

/-- C4: in gated mode, a fully successful cycle for a project whose app is
found at index i of the original config saves exactly the updated config,
whose record at i carries the resolved version and readytodeploy = 1, and
whose records at every other index are unchanged. -/
theorem cicd_success_persists_update
    (w : World) (env originalPath configPath : String) (origConfig : List Item)
    (item : Item) (p : String) (i : Nat) (newCfg : List Item) (eff : Effects)
    (hp : resolvePath w originalPath item = some p)
    (hidx : originalIndexOf origConfig item.app = some i)
    (hrun : processItem w env "CICD" originalPath configPath origConfig item =
      (some true, true, newCfg, eff)) :
    eff.saves = [(configPath, newCfg)] ∧
    (newCfg.get? i).map (fun it => (it.version, it.readytodeploy)) =
      some (some (resolveVersion w env p (oldVersionOf item)), some 1) ∧
    ∀ j, j ≠ i → newCfg.get? j = origConfig.get? j := by
  simp only [processItem, hp] at hrun
  split at hrun
  · simp at hrun
  · split at hrun
    · simp at hrun
    · split at hrun
      · next hci => exact absurd hci (by decide)
      · split at hrun
        · simp at hrun
        · split at hrun
          · rename_i i0 heq
            rw [hidx] at heq
            obtain rfl : i = i0 := Option.some_inj.mp heq
            simp only [Prod.mk.injEq] at hrun
            obtain ⟨-, -, hcfg, heff⟩ := hrun
            subst hcfg
            subst heff
            refine ⟨rfl, ?_, ?_⟩
            · rw [setReady_get?_self]
              rw [List.get?_eq_get (originalIndexOf_lt_length origConfig item.app i hidx)]
              rfl
            · intro j hj
              exact setReady_get?_ne origConfig i _ j hj
          · rename_i heq
            rw [hidx] at heq
            exact Option.noConfusion heq

/-- Witness for C4 at a concrete successful gated run. -/
theorem cicd_success_persists_update_witness :
    effC4.saves = [("cfg", newCfgC4)] ∧
    (newCfgC4.get? 0).map (fun it => (it.version, it.readytodeploy)) =
      some (some "1.0.1", some 1) := by
  have h := cicd_success_persists_update w4 "dev" "/w" "cfg" [itemA, itemB]
    itemA "/w/p/a" 0 newCfgC4 effC4 (by decide) (by decide) (by decide)
  exact ⟨h.1, h.2.1⟩

/- ### C5: which per-project failures are recorded, and the exit status -/

/-- C5 (amended): a build failure or a yaml-update failure is recorded as a
False entry in build_results and the loop moves on; a project whose path is
not found after probing the fallbacks is skipped with no recorded outcome at
all; the final exit code is 1 exactly when some recorded outcome is False. -/
theorem recoverable_failure_policy :
    (∀ (w : World) (env mode originalPath configPath : String)
        (origConfig : List Item) (item : Item),
      resolvePath w originalPath item = none →
      processItem w env mode originalPath configPath origConfig item =
        (none, false, origConfig, Effects.empty)) ∧
    (∀ (w : World) (env mode originalPath configPath : String)
        (origConfig : List Item) (item : Item) (p : String),
      resolvePath w originalPath item = some p →
      ¬(mode = "CICD" ∧
          oldVersionOf item = resolveVersion w env p (oldVersionOf item)) →
      w.buildOk p item.app (resolveVersion w env p (oldVersionOf item)) mode
        = false →
      (processItem w env mode originalPath configPath origConfig item).1 =
        some false) ∧
    (∀ (w : World) (env originalPath configPath : String)
        (origConfig : List Item) (item : Item) (p : String),
      resolvePath w originalPath item = some p →
      oldVersionOf item ≠ resolveVersion w env p (oldVersionOf item) →
      w.buildOk p item.app (resolveVersion w env p (oldVersionOf item)) "CICD"
        = true →
      (update_yaml_files w env (yamlFilesOf item) item.app
          (resolveVersion w env p (oldVersionOf item))).1 = false →
      (processItem w env "CICD" originalPath configPath origConfig item).1 =
        some false) ∧
    (∀ (w : World) (env mode repo : String) (projects : List String)
        (originalPath : String) (config : List Item),
      w.fileExists
          ("modules/" ++ repo ++ "/" ++ strLower env ++ "/build.config.json")
        = true →
      w.configLoad
          ("modules/" ++ repo ++ "/" ++ strLower env ++ "/build.config.json")
        = some config →
      ((mainModel w env mode repo projects originalPath).exitCode = 1 ∧
          false ∈ (mainModel w env mode repo projects originalPath).buildResults)
        ∨
      ((mainModel w env mode repo projects originalPath).exitCode = 0 ∧
          false ∉ (mainModel w env mode repo projects originalPath).buildResults)) := by
  refine ⟨?_, ?_, ?_, ?_⟩
  · intro w env mode originalPath configPath origConfig item h
    simp only [processItem, h]
  · intro w env mode originalPath configPath origConfig item p hp hne hb
    simp only [processItem, hp]
    rw [if_neg hne]
    simp [hb]
  · intro w env originalPath configPath origConfig item p hp hv hb hy
    simp only [processItem, hp, true_and]
    rw [if_neg hv]
    simp [hb, hy]
  · intro w env mode repo projects originalPath config hf hload
    simp only [mainModel, hf, hload, eq_self_iff_true, not_true, if_false]
    split
    · split
      · next hm => exact Or.inl ⟨rfl, hm⟩
      · next hm => exact Or.inr ⟨rfl, hm⟩
    · split
      · next hm => exact Or.inl ⟨rfl, hm⟩
      · next hm => exact Or.inr ⟨rfl, hm⟩

/-- Counterexample to C5 as stated: with a single project whose path cannot
be found (a recoverable per-project failure), the run records nothing in the
results list and exits with status 0, not a non-zero status. -/
theorem path_failure_unrecorded_counterexample :
    resolvePath wMissing "/w" itemA = none ∧
    (mainModel wMissing "dev" "CICD" "vml" [] "/w").buildResults = [] ∧
    (mainModel wMissing "dev" "CICD" "vml" [] "/w").exitCode = 0 := by
  decide

/-- Witness for the amended C5 at concrete runs: skipped path failure, a
recorded build failure, a recorded yaml failure, and the exit-code account. -/
theorem recoverable_failure_policy_witness :
    processItem wMissing "dev" "CICD" "/w" "cfg" [itemA] itemA =
      (none, false, [itemA], Effects.empty) ∧
    (processItem wBF "dev" "CICD" "/w" "cfg" [itemA] itemA).1 = some false ∧
    (processItem wYF "dev" "CICD" "/w" "cfg" [itemA] itemA).1 = some false ∧
    (((mainModel wBF "dev" "CICD" "vml" [] "/w").exitCode = 1 ∧
        false ∈ (mainModel wBF "dev" "CICD" "vml" [] "/w").buildResults) ∨
      ((mainModel wBF "dev" "CICD" "vml" [] "/w").exitCode = 0 ∧
        false ∉ (mainModel wBF "dev" "CICD" "vml" [] "/w").buildResults)) :=
  ⟨recoverable_failure_policy.1 wMissing "dev" "CICD" "/w" "cfg" [itemA] itemA
      (by decide),
   recoverable_failure_policy.2.1 wBF "dev" "CICD" "/w" "cfg" [itemA] itemA
      "/w/p/a" (by decide) (by decide) (by decide),
   recoverable_failure_policy.2.2.1 wYF "dev" "/w" "cfg" [itemA] itemA
      "/w/p/a" (by decide) (by decide) (by decide) (by decide),
   recoverable_failure_policy.2.2.2 wBF "dev" "CICD" "vml" [] "/w" [itemA]
      (by decide) (by decide)⟩

/- ### C6: manifest decode failure is fatal and mutation free -/

/-- C6: when load_config fails on the manifest (decode or read failure), the
run exits with code 1 and performs no build, no yq patch, no manifest write
and no commit. -/
theorem decode_failure_exits_one_no_writes
    (w : World) (env mode repo : String) (projects : List String)
    (originalPath : String)
    (h : w.configLoad
        ("modules/" ++ repo ++ "/" ++ strLower env ++ "/build.config.json")
      = none) :
    mainModel w env mode repo projects originalPath =
      ⟨1, [], [], Effects.empty⟩ := by
  simp only [mainModel]
  split
  · rfl
  · rw [h]

/-- Witness for C6 at a concrete run. -/
theorem decode_failure_exits_one_no_writes_witness :
    mainModel wNoCfg "dev" "CICD" "vml" [] "/w" = ⟨1, [], [], Effects.empty⟩ :=
  decode_failure_exits_one_no_writes wNoCfg "dev" "CICD" "vml" [] "/w" rfl

/- ### C7: the error policy of update_yaml_files -/

/-- C7: a yaml file found in no candidate directory is skipped without
failing (when every found file patches cleanly the function returns True),
while a yq failure on a found file returns False at once, with no further
yq invocations. -/
theorem update_yaml_files_policy :
    (∀ (w : World) (env : String) (files : List String) (tag ver : String),
      (∀ f ∈ files, ∀ p,
          (candidatePaths env (pyStrip f)).find? w.fileExists = some p →
          w.yqOk p = true) →
      (update_yaml_files w env files tag ver).1 = true) ∧
    (∀ (w : World) (env f : String) (rest : List String) (tag ver p : String),
      (candidatePaths env (pyStrip f)).find? w.fileExists = some p →
      w.yqOk p = false →
      update_yaml_files w env (f :: rest) tag ver = (false, [p])) := by
  constructor
  · intro w env files tag ver
    induction files with
    | nil => intro h; rfl
    | cons f rest ih =>
      intro h
      cases hfind : (candidatePaths env (pyStrip f)).find? w.fileExists with
      | none =>
        simp only [update_yaml_files, hfind]
        exact ih (fun g hg p hp => h g (List.mem_cons_of_mem f hg) p hp)
      | some p =>
        have hy := h f (List.mem_cons_self f rest) p hfind
        simp only [update_yaml_files, hfind, hy, if_true]
        exact ih (fun g hg q hq => h g (List.mem_cons_of_mem f hg) q hq)
  · intro w env f rest tag ver p hfind hy
    simp only [update_yaml_files, hfind, hy]
    rfl

/-- Witness for C7: a missing yaml file still yields True; a yq failure on a
found file yields False with exactly the failing invocation. -/
theorem update_yaml_files_policy_witness :
    (update_yaml_files wYamlNone "dev" ["d.yaml"] "svc-a" "1.0.1").1 = true ∧
    update_yaml_files wYamlFail "dev" ["d.yaml"] "svc-a" "1.0.1" =
      (false, ["../vml_argocd/vml/dev/base/d.yaml"]) :=
  ⟨update_yaml_files_policy.1 wYamlNone "dev" ["d.yaml"] "svc-a" "1.0.1"
      (by
        intro f hf p hp
        rw [List.mem_singleton] at hf
        subst hf
        exact Option.noConfusion hp),
   update_yaml_files_policy.2 wYamlFail "dev" "d.yaml" [] "svc-a" "1.0.1"
      "../vml_argocd/vml/dev/base/d.yaml" (by decide) rfl⟩

/- ### C8: the build step restores the working directory -/

/-- C8: whenever the original working directory exists, the build step ends
with the working directory equal to what it was before, on the success path
and on every failure or exception path alike. -/
theorem build_restores_cwd (w : BuildWorld)
    (path imageTag version buildMode cwd0 : String)
    (h : w.dirExists cwd0 = true) :
    (build w path imageTag version buildMode cwd0).2 = cwd0 := by
  simp [build, h]

/-- Witness for C8 on a failing build (build.sh missing): the directory is
restored. -/
theorem build_restores_cwd_witness :
    (build bw1 "/w/p/a" "svc-a" "1.0.1" "CICD" "/w").2 = "/w" :=
  build_restores_cwd bw1 "/w/p/a" "svc-a" "1.0.1" "CICD" "/w" rfl

/- ### C9: the CRLF normalization of the build script -/

lemma replaceCRLF_cons_of_ne (b : Nat) (rest : List Nat) (hb : b ≠ 13) :
    replaceCRLF (b :: rest) = b :: replaceCRLF rest := by
  rw [replaceCRLF.eq_def]
  split
  · next heq => exact List.noConfusion heq
  · next heq =>
    injection heq with h1 h2
    exact absurd h1 hb
  · next heq =>
    injection heq with h1 h2
    subst h1
    subst h2
    rfl

lemma crAlwaysBeforeLF_cons_of_ne (b : Nat) (rest : List Nat) (hb : b ≠ 13) :
    crAlwaysBeforeLF (b :: rest) = crAlwaysBeforeLF rest := by
  rw [crAlwaysBeforeLF.eq_def]
  split
  · next heq => exact List.noConfusion heq
  · next heq =>
    injection heq with h1 h2
    exact absurd h1 hb
  · next heq =>
    injection heq with h1 h2
    exact absurd h1 hb
  · next heq =>
    injection heq with h1 h2
    subst h1
    subst h2
    rfl

lemma crAlwaysBeforeLF_cr_of_ne (rest : List Nat)
    (hr : ∀ r : List Nat, rest ≠ 10 :: r) :
    crAlwaysBeforeLF (13 :: rest) = false := by
  rw [crAlwaysBeforeLF.eq_def]
  split
  · next heq => exact List.noConfusion heq
  · next heq =>
    injection heq with h1 h2
    exact absurd h2 (hr _)
  · rfl
  · next hx heq =>
    injection heq with h1 h2
    subst h1
    subst h2
    exact absurd (hx rfl) id

lemma noCR_replaceCRLF :
    ∀ l : List Nat, crAlwaysBeforeLF l = true → 13 ∉ replaceCRLF l := by
  intro l
  induction l using replaceCRLF.induct with
  | case1 =>
    intro _ h
    exact absurd h (List.not_mem_nil 13)
  | case2 rest ih =>
    intro hwf h
    rw [show crAlwaysBeforeLF (13 :: 10 :: rest) = crAlwaysBeforeLF rest from rfl]
      at hwf
    rw [show replaceCRLF (13 :: 10 :: rest) = 10 :: replaceCRLF rest from rfl]
      at h
    rcases List.mem_cons.mp h with h10 | hrest
    · exact absurd h10 (by decide)
    · exact ih hwf hrest
  | case3 b rest hne ih =>
    intro hwf h
    by_cases hb : b = 13
    · subst hb
      rw [crAlwaysBeforeLF_cr_of_ne rest
        (fun r hr => hne r rfl hr)] at hwf
      exact Bool.noConfusion hwf
    · rw [replaceCRLF_cons_of_ne b rest hb] at h
      rw [crAlwaysBeforeLF_cons_of_ne b rest hb] at hwf
      rcases List.mem_cons.mp h with hb13 | hrest
      · exact hb hb13.symm
      · exact ih hwf hrest

/-- Counterexample to C9 as stated: on input CR CR LF the single replacement
pass of fix_line_endings writes CR LF, which still contains the CR LF
sequence. -/
theorem fix_line_endings_counterexample :
    (fix_line_endings ⟨[13, 13, 10], 0o644⟩).content = [13, 10] ∧
    [13, 10] <:+: (fix_line_endings ⟨[13, 13, 10], 0o644⟩).content := by
  exact ⟨rfl, ⟨[], [], rfl⟩⟩

/-- C9 (amended): for content in which every CR byte is immediately followed
by LF, a successful fix writes content free of the CR LF sequence (all CR
bytes are gone) and marks the file executable (mode 0o755). -/
theorem fix_line_endings_amended (f : FileState)
    (h : crAlwaysBeforeLF f.content = true) :
    ¬ [13, 10] <:+: (fix_line_endings f).content ∧
    (fix_line_endings f).mode = 0o755 := by
  refine ⟨?_, rfl⟩
  intro hinf
  exact noCR_replaceCRLF f.content h
    (hinf.subset (by exact List.mem_cons_self 13 [10]))

/-- Witness for the amended C9 on a concrete well-formed content. -/
theorem fix_line_endings_amended_witness :
    ¬ [13, 10] <:+: (fix_line_endings ⟨[97, 13, 10, 98], 0o644⟩).content ∧
    (fix_line_endings ⟨[97, 13, 10, 98], 0o644⟩).mode = 0o755 :=
  fix_line_endings_amended ⟨[97, 13, 10, 98], 0o644⟩ (by decide)

/- ### C10: YAML image reference versus the pushed image reference -/

lemma map_fix_of_eq_self (f : Nat → Nat) :
    ∀ l : List Nat, l.map f = l → ∀ b ∈ l, f b = b := by
  intro l
  induction l with
  | nil => intro _ b hb; exact absurd hb (List.not_mem_nil b)
  | cons x xs ih =>
    intro h b hb
    rw [List.map_cons] at h
    injection h with h1 h2
    rcases List.mem_cons.mp hb with hbx | hbs
    · subst hbx; exact h1
    · exact ih h2 b hbs

/-- C10: for an image tag containing an upper-case ASCII letter, the image
reference written into the YAML differs from the reference the direct-build
fallback tags and pushes, whatever the version. -/
theorem yaml_vs_pushed_ref_differ (tag ver : List Nat)
    (h : ∃ b ∈ tag, 65 ≤ b ∧ b ≤ 90) :
    yamlImageRef tag ver ≠ pushedImageRef tag ver := by
  intro heq
  obtain ⟨b, hb, hup⟩ := h
  unfold yamlImageRef pushedImageRef at heq
  simp only [List.append_assoc] at heq
  have h2 := List.append_cancel_left (List.append_cancel_left heq)
  have h3 : tag = pyLowerBytes tag := List.append_cancel_right h2
  have hfb := map_fix_of_eq_self lowerByte tag h3.symm b hb
  rw [lowerByte, if_pos hup] at hfb
  omega

/-- Witness for C10 at a concrete upper-case tag. -/
theorem yaml_vs_pushed_ref_differ_witness :
    yamlImageRef (strBytes "VietmapCloud.Api") (strBytes "1.0.1") ≠
      pushedImageRef (strBytes "VietmapCloud.Api") (strBytes "1.0.1") :=
  yaml_vs_pushed_ref_differ (strBytes "VietmapCloud.Api") (strBytes "1.0.1")
    (by decide)
